import Mathlib

/-
Shallow embedding of src/object_filtering/object_filtering/filter_node.py
(class SmallObjFilter, method cb), together with theorems settling the
claims about it.

Python floats are modelled by the type Val: either NaN or a finite value
represented as a rational.  Rationals are carried as explicit fractions
(structure Q: integer numerator, natural denominator) so that every
operation reduces inside the Lean kernel; every value the embedding
constructs has a positive denominator, and the operations preserve that,
so the cross-multiplication comparisons below agree with the rational
order.  Comparisons involving NaN are false and arithmetic involving NaN
yields NaN, as in IEEE-754 / Python.  The Python builtins max and min
over an iterable keep the current candidate unless the next element
compares strictly greater (resp. smaller), and raise ValueError on an
empty sequence; both behaviours are modelled faithfully (pyMaxGo / pyMax
below).  Message types mirror the ROS message fields the code reads or
writes; fixed-size float32[3] arrays become Vec3.
-/

namespace ObjectFiltering

/-- A rational carried as an explicit fraction n / d.  All values built
by the embedding have d positive. -/
structure Q where
  n : Int
  d : Nat
deriving DecidableEq, Repr

/-- Rational comparison a < b by cross multiplication (valid since all
denominators the embedding produces are positive). -/
def Q.lt (a b : Q) : Bool := a.n * (b.d : Int) < b.n * (a.d : Int)

/-- Rational comparison a <= b by cross multiplication. -/
def Q.le (a b : Q) : Bool := a.n * (b.d : Int) ≤ b.n * (a.d : Int)

/-- Rational addition on fractions. -/
def Q.add (a b : Q) : Q := ⟨a.n * (b.d : Int) + b.n * (a.d : Int), a.d * b.d⟩

/-- Rational subtraction on fractions. -/
def Q.sub (a b : Q) : Q := ⟨a.n * (b.d : Int) - b.n * (a.d : Int), a.d * b.d⟩

/-- Rational division on fractions: (a.n / a.d) / (b.n / b.d) is
(a.n * b.d) / (a.d * b.n), with the sign moved to the numerator.  The
only division the code performs has the constant 2 as divisor, so the
zero-divisor case never arises. -/
def Q.div (a b : Q) : Q :=
  if 0 ≤ b.n then ⟨a.n * (b.d : Int), a.d * b.n.toNat⟩
  else ⟨-(a.n * (b.d : Int)), a.d * (-b.n).toNat⟩

/-- A Python float: NaN or a finite value modelled as a rational. -/
inductive Val where
  | nan : Val
  | num : Q → Val
deriving DecidableEq, Repr

/-- Python math.isnan. -/
def Val.isnan : Val → Bool
  | .nan => true
  | .num _ => false

/-- Python float comparison a < b; false whenever either side is NaN. -/
def Val.lt : Val → Val → Bool
  | .num a, .num b => Q.lt a b
  | _, _ => false

/-- Python float comparison a > b; false whenever either side is NaN. -/
def Val.gt (a b : Val) : Bool := Val.lt b a

/-- Python float comparison a >= b; false whenever either side is NaN. -/
def Val.ge : Val → Val → Bool
  | .num a, .num b => Q.le b a
  | _, _ => false

/-- Python float subtraction; NaN propagates. -/
def Val.sub : Val → Val → Val
  | .num a, .num b => .num (Q.sub a b)
  | _, _ => .nan

/-- Python float addition; NaN propagates. -/
def Val.add : Val → Val → Val
  | .num a, .num b => .num (Q.add a b)
  | _, _ => .nan

/-- Python float division; NaN propagates.  The only division the code
performs has the constant 2.0 as divisor, so the zero-divisor case never
arises. -/
def Val.div : Val → Val → Val
  | .num a, .num b => .num (Q.div a b)
  | _, _ => .nan

/-- The iteration inside the Python builtin max: starting from the current
candidate, replace it only when the next element compares strictly
greater.  With NaN this is order dependent, exactly as in Python. -/
def pyMaxGo : Val → List Val → Val
  | cur, [] => cur
  | cur, v :: rest => pyMaxGo (if Val.gt v cur then v else cur) rest

/-- The iteration inside the Python builtin min. -/
def pyMinGo : Val → List Val → Val
  | cur, [] => cur
  | cur, v :: rest => pyMinGo (if Val.lt v cur then v else cur) rest

/-- Python max over a list; raises ValueError on an empty sequence. -/
def pyMax : List Val → Except String Val
  | [] => .error "ValueError: max() arg is an empty sequence"
  | v :: rest => .ok (pyMaxGo v rest)

/-- Python min over a list; raises ValueError on an empty sequence. -/
def pyMin : List Val → Except String Val
  | [] => .error "ValueError: min() arg is an empty sequence"
  | v :: rest => .ok (pyMinGo v rest)

/-- Total variant of pyMax, meaningful on nonempty lists; the callback
only reaches it after the 8-corner guard, which pyMax_ok below connects
to the raising variant. -/
def pyMaxD : List Val → Val
  | [] => .nan
  | v :: rest => pyMaxGo v rest

/-- Total variant of pyMin, meaningful on nonempty lists. -/
def pyMinD : List Val → Val
  | [] => .nan
  | v :: rest => pyMinGo v rest

/-- Python max(a, b, c): fold over the three arguments. -/
def pyMax3 (a b c : Val) : Val :=
  let m := if Val.gt b a then b else a
  if Val.gt c m then c else m

/-- A float32[3] array from the message definitions. -/
structure Vec3 where
  x : Val
  y : Val
  z : Val
deriving DecidableEq, Repr

/-- zed_msgs Keypoint3D: a single corner, field kp is float32[3]. -/
structure Keypoint3D where
  kp : Vec3
deriving DecidableEq, Repr

/-- zed_msgs BoundingBox3D: the corners sequence the code measures. -/
structure BoundingBox3D where
  corners : List Keypoint3D
deriving DecidableEq, Repr

/-- std_msgs Header: copied wholesale by the callback. -/
structure Header where
  stamp_sec : Int := 0
  stamp_nanosec : Nat := 0
  frame_id : String := ""
deriving DecidableEq, Repr

/-- One detected object, with the fields the callback reads. -/
structure Object where
  label : String
  label_id : Int
  position : Vec3
  dimensions_3d : Vec3
  bounding_box_3d : BoundingBox3D
deriving DecidableEq, Repr

/-- zed_msgs ObjectsStamped: the input and output message of the node. -/
structure ObjectsStamped where
  header : Header
  objects : List Object
deriving DecidableEq, Repr

/-- geometry_msgs Quaternion with ROS message defaults (all zero). -/
structure Quaternion where
  x : Val := .num ⟨0, 1⟩
  y : Val := .num ⟨0, 1⟩
  z : Val := .num ⟨0, 1⟩
  w : Val := .num ⟨0, 1⟩
deriving DecidableEq, Repr

/-- geometry_msgs Pose with ROS message defaults. -/
structure Pose where
  position : Vec3 := ⟨.num ⟨0, 1⟩, .num ⟨0, 1⟩, .num ⟨0, 1⟩⟩
  orientation : Quaternion := {}
deriving DecidableEq, Repr

/-- std_msgs ColorRGBA; the callback only stores constants here, modelled
as rationals. -/
structure ColorRGBA where
  r : Q := ⟨0, 1⟩
  g : Q := ⟨0, 1⟩
  b : Q := ⟨0, 1⟩
  a : Q := ⟨0, 1⟩
deriving DecidableEq, Repr

/-- visualization_msgs Marker, restricted to the fields the callback sets;
defaults are the ROS message defaults produced by Marker(). -/
structure Marker where
  header : Header := {}
  ns : String := ""
  id : Int := 0
  type : Nat := 0
  action : Nat := 0
  pose : Pose := {}
  scale : Vec3 := ⟨.num ⟨0, 1⟩, .num ⟨0, 1⟩, .num ⟨0, 1⟩⟩
  color : ColorRGBA := {}
  text : String := ""
deriving DecidableEq, Repr

/-- visualization_msgs MarkerArray. -/
structure MarkerArray where
  markers : List Marker := []
deriving DecidableEq, Repr

/-- Marker.CUBE message constant. -/
def markerCUBE : Nat := 1

/-- Marker.TEXT_VIEW_FACING message constant. -/
def markerTEXT : Nat := 9

/-- Marker.ADD message constant. -/
def markerADD : Nat := 0

namespace SmallObjFilter

/-- Default of self.size_threshold (0.9 meters) set in the constructor. -/
def size_threshold : Val := .num ⟨9, 10⟩

/-- Default of self.max_objects (10) set in the constructor. -/
def max_objects : Nat := 10

/-- The check "any(math.isnan(v) for v in obj.position)". -/
def hasNanPos (o : Object) : Bool :=
  o.position.x.isnan || o.position.y.isnan || o.position.z.isnan

/-- The list comprehension xs = [p.kp[0] for p in corners]. -/
def cornerXs (o : Object) : List Val :=
  o.bounding_box_3d.corners.map (fun p => p.kp.x)

/-- The list comprehension ys = [p.kp[1] for p in corners]. -/
def cornerYs (o : Object) : List Val :=
  o.bounding_box_3d.corners.map (fun p => p.kp.y)

/-- The list comprehension zs = [p.kp[2] for p in corners]. -/
def cornerZs (o : Object) : List Val :=
  o.bounding_box_3d.corners.map (fun p => p.kp.z)

/-- length = max(xs) - min(xs). -/
def objLength (o : Object) : Val :=
  Val.sub (pyMaxD (cornerXs o)) (pyMinD (cornerXs o))

/-- width = max(ys) - min(ys). -/
def objWidth (o : Object) : Val :=
  Val.sub (pyMaxD (cornerYs o)) (pyMinD (cornerYs o))

/-- height = max(zs) - min(zs). -/
def objHeight (o : Object) : Val :=
  Val.sub (pyMaxD (cornerZs o)) (pyMinD (cornerZs o))

/-- max(length, width, height), the quantity compared to the threshold. -/
def maxExtent (o : Object) : Val :=
  pyMax3 (objLength o) (objWidth o) (objHeight o)

/-- The complete per-object keep condition of the scan: NaN-free position,
exactly 8 corners, and largest extent strictly below the threshold. -/
def qualifies (thr : Val) (o : Object) : Bool :=
  !(hasNanPos o) && (o.bounding_box_3d.corners.length == 8)
    && Val.lt (maxExtent o) thr

/-- The for-loop of cb accumulating filtered_objects: the two continue
statements (NaN position, corner count different from 8), the conditional
append under the threshold test, and the break as soon as the accumulated
length reaches max_objects. -/
def filterLoop (thr : Val) (maxObjects : Nat) :
    List Object → List Object → List Object
  | [], acc => acc
  | o :: rest, acc =>
    if hasNanPos o then filterLoop thr maxObjects rest acc
    else if o.bounding_box_3d.corners.length ≠ 8 then
      filterLoop thr maxObjects rest acc
    else
      let acc2 := if Val.lt (maxExtent o) thr then acc ++ [o] else acc
      if maxObjects ≤ acc2.length then acc2
      else filterLoop thr maxObjects rest acc2

/-- The cube marker built for the kept object at enumeration index i:
ns "small_objects", id i*2, type CUBE, action ADD, pose at the object's
position with orientation w = 1, scale from dimensions_3d, translucent
green color; the remaining fields keep their Marker() defaults. -/
def mkCube (hdr : Header) (i : Nat) (o : Object) : Marker :=
  { header := hdr
    ns := "small_objects"
    id := (i : Int) * 2
    type := markerCUBE
    action := markerADD
    pose := { position := { x := o.position.x, y := o.position.y,
                            z := o.position.z }
              orientation := { w := .num ⟨1, 1⟩ } }
    scale := { x := o.dimensions_3d.x, y := o.dimensions_3d.y,
               z := o.dimensions_3d.z }
    color := { a := ⟨1, 2⟩, r := ⟨0, 1⟩, g := ⟨1, 1⟩, b := ⟨0, 1⟩ } }

/-- The text marker built for the kept object at enumeration index i:
ns "small_objects_text", id i*2 + 1, type TEXT_VIEW_FACING, action ADD,
position sharing x and y with the object and z raised by half the third
dimension plus 0.1, orientation w = 1, scale.z = 0.2, opaque white color,
and the rendered label string. -/
def mkText (hdr : Header) (i : Nat) (o : Object) : Marker :=
  { header := hdr
    ns := "small_objects_text"
    id := (i : Int) * 2 + 1
    type := markerTEXT
    action := markerADD
    pose := { position := { x := o.position.x, y := o.position.y,
                            z := Val.add (Val.add o.position.z
                              (Val.div o.dimensions_3d.z (.num ⟨2, 1⟩))) (.num ⟨1, 10⟩) }
              orientation := { w := .num ⟨1, 1⟩ } }
    scale := { x := .num ⟨0, 1⟩, y := .num ⟨0, 1⟩, z := .num ⟨1, 5⟩ }
    color := { a := ⟨1, 1⟩, r := ⟨1, 1⟩, g := ⟨1, 1⟩, b := ⟨1, 1⟩ }
    text := o.label ++ " (id=" ++ toString o.label_id ++ ")" }

/-- The marker-building loop "for i, obj in enumerate(filtered_objects)":
per kept object a cube marker then a text marker, with the running
enumeration index. -/
def mkMarkers (hdr : Header) : Nat → List Object → List Marker
  | _, [] => []
  | i, o :: rest => mkCube hdr i o :: mkText hdr i o :: mkMarkers hdr (i + 1) rest

/-- The callback cb as a function from the input message (and the two
configuration constants) to its published output: none when no object
survives, otherwise the republished ObjectsStamped together with the
MarkerArray, both published inside the same if-block. -/
def cb (thr : Val) (maxObjects : Nat) (msg : ObjectsStamped) :
    Option (ObjectsStamped × MarkerArray) :=
  let filtered := filterLoop thr maxObjects msg.objects []
  if filtered.isEmpty then none
  else some ({ header := msg.header, objects := filtered },
             { markers := mkMarkers msg.header 0 filtered })

/-- The extent computation with the partiality of the Python builtins max
and min made explicit: any of the six calls raises on an empty corner
list. -/
def extentsE (o : Object) : Except String Val := do
  let maxX ← pyMax (cornerXs o)
  let minX ← pyMin (cornerXs o)
  let maxY ← pyMax (cornerYs o)
  let minY ← pyMin (cornerYs o)
  let maxZ ← pyMax (cornerZs o)
  let minZ ← pyMin (cornerZs o)
  pure (pyMax3 (Val.sub maxX minX) (Val.sub maxY minY) (Val.sub maxZ minZ))

/-- The for-loop of cb with explicit raising: identical to filterLoop but
propagating a ValueError from the extent computation. -/
def filterLoopE (thr : Val) (maxObjects : Nat) :
    List Object → List Object → Except String (List Object)
  | [], acc => .ok acc
  | o :: rest, acc =>
    if hasNanPos o then filterLoopE thr maxObjects rest acc
    else if o.bounding_box_3d.corners.length ≠ 8 then
      filterLoopE thr maxObjects rest acc
    else do
      let ext ← extentsE o
      let acc2 := if Val.lt ext thr then acc ++ [o] else acc
      if maxObjects ≤ acc2.length then pure acc2
      else filterLoopE thr maxObjects rest acc2

/-- The callback with explicit raising: an uncaught exception anywhere in
the body surfaces as an error value. -/
def cbE (thr : Val) (maxObjects : Nat) (msg : ObjectsStamped) :
    Except String (Option (ObjectsStamped × MarkerArray)) := do
  let filtered ← filterLoopE thr maxObjects msg.objects []
  if filtered.isEmpty then pure none
  else pure (some ({ header := msg.header, objects := filtered },
                   { markers := mkMarkers msg.header 0 filtered }))

/-- A concrete corner with rational coordinates, for concrete runs. -/
def corner (a b c : Q) : Keypoint3D := ⟨⟨.num a, .num b, .num c⟩⟩

/-- The 8 corners of an axis-aligned cube of side s with a vertex at the
origin. -/
def cornersCube (s : Q) : List Keypoint3D :=
  [corner ⟨0, 1⟩ ⟨0, 1⟩ ⟨0, 1⟩, corner s ⟨0, 1⟩ ⟨0, 1⟩, corner ⟨0, 1⟩ s ⟨0, 1⟩,
   corner s s ⟨0, 1⟩, corner ⟨0, 1⟩ ⟨0, 1⟩ s, corner s ⟨0, 1⟩ s,
   corner ⟨0, 1⟩ s s, corner s s s]

/-- A concrete header for concrete runs. -/
def sampleHeader : Header :=
  { stamp_sec := 5, stamp_nanosec := 7, frame_id := "map" }

/-- A qualifying object: NaN-free position, 8 corners spanning 0.5. -/
def sampleObj : Object :=
  { label := "Person"
    label_id := 3
    position := ⟨.num ⟨1, 1⟩, .num ⟨1, 1⟩, .num ⟨1, 1⟩⟩
    dimensions_3d := ⟨.num ⟨1, 2⟩, .num ⟨1, 2⟩, .num ⟨1, 2⟩⟩
    bounding_box_3d := ⟨cornersCube ⟨1, 2⟩⟩ }

/-- An object with a NaN position component but otherwise small. -/
def nanObj : Object :=
  { label := "Ghost"
    label_id := 4
    position := ⟨.nan, .num ⟨0, 1⟩, .num ⟨0, 1⟩⟩
    dimensions_3d := ⟨.num ⟨1, 10⟩, .num ⟨1, 10⟩, .num ⟨1, 10⟩⟩
    bounding_box_3d := ⟨cornersCube ⟨1, 10⟩⟩ }

/-- An object whose bounding box has only 6 corners. -/
def badCornersObj : Object :=
  { label := "Torn"
    label_id := 5
    position := ⟨.num ⟨2, 1⟩, .num ⟨2, 1⟩, .num ⟨2, 1⟩⟩
    dimensions_3d := ⟨.num ⟨1, 10⟩, .num ⟨1, 10⟩, .num ⟨1, 10⟩⟩
    bounding_box_3d := ⟨(cornersCube ⟨1, 10⟩).take 6⟩ }

/-- A concrete input frame mixing a NaN object, a qualifying object and a
malformed one. -/
def sampleMsg : ObjectsStamped :=
  { header := sampleHeader, objects := [nanObj, sampleObj, badCornersObj] }

/-- The filtered frame cb publishes for sampleMsg. -/
def sampleOut : ObjectsStamped :=
  { header := sampleHeader, objects := [sampleObj] }

/-- The marker array cb publishes for sampleMsg. -/
def sampleMarkers : MarkerArray :=
  { markers := [mkCube sampleHeader 0 sampleObj, mkText sampleHeader 0 sampleObj] }

/-- An Object with dimensions, label and label id replaced; selection
never reads these fields, which the dimension-independence claim makes
precise. -/
def withDims (o : Object) (d : Vec3) (lbl : String) (lid : Int) : Object :=
  { o with dimensions_3d := d, label := lbl, label_id := lid }

theorem exceptBind_ok {α β : Type} (a : α) (f : α → Except String β) :
    (Except.ok a >>= f) = f a := rfl

theorem pyMax_ok (v : Val) (l : List Val) :
    pyMax (v :: l) = .ok (pyMaxD (v :: l)) := rfl

theorem pyMin_ok (v : Val) (l : List Val) :
    pyMin (v :: l) = .ok (pyMinD (v :: l)) := rfl

theorem extentsE_ok (o : Object)
    (h : o.bounding_box_3d.corners.length = 8) :
    extentsE o = .ok (maxExtent o) := by
  cases hc : o.bounding_box_3d.corners with
  | nil => rw [hc] at h; simp at h
  | cons p ps =>
    have hx : cornerXs o = p.kp.x :: ps.map (fun q => q.kp.x) := by
      simp [cornerXs, hc]
    have hy : cornerYs o = p.kp.y :: ps.map (fun q => q.kp.y) := by
      simp [cornerYs, hc]
    have hz : cornerZs o = p.kp.z :: ps.map (fun q => q.kp.z) := by
      simp [cornerZs, hc]
    simp [extentsE, hx, hy, hz, pyMax, pyMin, exceptBind_ok, maxExtent,
      objLength, objWidth, objHeight, pyMaxD, pyMinD, pure, Except.pure]

theorem filterLoopE_ok (thr : Val) (maxObjects : Nat) :
    ∀ (objs acc : List Object),
      filterLoopE thr maxObjects objs acc =
        .ok (filterLoop thr maxObjects objs acc) := by
  intro objs
  induction objs with
  | nil => intro acc; rfl
  | cons o rest ih =>
    intro acc
    by_cases h1 : hasNanPos o
    · simp only [filterLoopE, filterLoop, if_pos h1]
      exact ih acc
    · by_cases h2 : o.bounding_box_3d.corners.length ≠ 8
      · simp only [filterLoopE, filterLoop, if_neg h1, if_pos h2]
        exact ih acc
      · push_neg at h2
        have he := extentsE_ok o h2
        simp only [filterLoopE, filterLoop, if_neg h1,
          if_neg (not_not_intro h2), he, exceptBind_ok]
        split <;> split <;> first | rfl | exact ih _

theorem cbE_ok (thr : Val) (maxObjects : Nat) (msg : ObjectsStamped) :
    cbE thr maxObjects msg = .ok (cb thr maxObjects msg) := by
  simp only [cbE, cb, filterLoopE_ok, exceptBind_ok]
  split <;> rfl

theorem Val.ge_imp_not_lt {a b : Val} (h : Val.ge a b = true) :
    Val.lt a b = false := by
  cases a <;> cases b <;> simp_all [Val.ge, Val.lt, Q.le, Q.lt]

theorem qualifies_true {thr : Val} {o : Object}
    (h1 : hasNanPos o = false) (h2 : o.bounding_box_3d.corners.length = 8)
    (h3 : Val.lt (maxExtent o) thr = true) : qualifies thr o = true := by
  simp [qualifies, h1, h2, h3]

theorem mem_filterLoop (thr : Val) (maxObjects : Nat) :
    ∀ (objs acc : List Object) (o : Object),
      o ∈ filterLoop thr maxObjects objs acc →
      o ∈ acc ∨ (o ∈ objs ∧ qualifies thr o = true) := by
  intro objs
  induction objs with
  | nil =>
    intro acc o h
    simp only [filterLoop] at h
    exact Or.inl h
  | cons a rest ih =>
    intro acc o h
    simp only [filterLoop] at h
    by_cases h1 : hasNanPos a
    · rw [if_pos h1] at h
      rcases ih acc o h with hl | ⟨hm, hq⟩
      · exact Or.inl hl
      · exact Or.inr ⟨List.mem_cons_of_mem _ hm, hq⟩
    · rw [if_neg h1] at h
      by_cases h2 : a.bounding_box_3d.corners.length ≠ 8
      · rw [if_pos h2] at h
        rcases ih acc o h with hl | ⟨hm, hq⟩
        · exact Or.inl hl
        · exact Or.inr ⟨List.mem_cons_of_mem _ hm, hq⟩
      · rw [if_neg h2] at h
        push_neg at h2
        by_cases h3 : Val.lt (maxExtent a) thr
        · rw [if_pos h3] at h
          have hq : qualifies thr a = true :=
            qualifies_true (by simpa using h1) h2 h3
          have hmem : o ∈ acc ++ [a] →
              o ∈ acc ∨ (o ∈ a :: rest ∧ qualifies thr o = true) := by
            intro hx
            rcases List.mem_append.mp hx with hx | hx
            · exact Or.inl hx
            · have : o = a := by simpa using hx
              subst this
              exact Or.inr ⟨List.mem_cons_self _ _, hq⟩
          by_cases h4 : maxObjects ≤ (acc ++ [a]).length
          · rw [if_pos h4] at h
            exact hmem h
          · rw [if_neg h4] at h
            rcases ih _ o h with hl | ⟨hm, hq2⟩
            · exact hmem hl
            · exact Or.inr ⟨List.mem_cons_of_mem _ hm, hq2⟩
        · rw [if_neg h3] at h
          by_cases h4 : maxObjects ≤ acc.length
          · rw [if_pos h4] at h
            exact Or.inl h
          · rw [if_neg h4] at h
            rcases ih acc o h with hl | ⟨hm, hq2⟩
            · exact Or.inl hl
            · exact Or.inr ⟨List.mem_cons_of_mem _ hm, hq2⟩

theorem filterLoop_eq_take (thr : Val) (maxObjects : Nat) :
    ∀ (objs acc : List Object), acc.length < maxObjects →
      filterLoop thr maxObjects objs acc =
        acc ++ (objs.filter (qualifies thr)).take (maxObjects - acc.length) := by
  intro objs
  induction objs with
  | nil => intro acc h; simp [filterLoop]
  | cons a rest ih =>
    intro acc h
    simp only [filterLoop]
    by_cases h1 : hasNanPos a
    · have hq : ¬ qualifies thr a = true := by simp [qualifies, h1]
      rw [if_pos h1, ih acc h, List.filter_cons_of_neg hq]
    · rw [if_neg h1]
      by_cases h2 : a.bounding_box_3d.corners.length ≠ 8
      · have h8 : (a.bounding_box_3d.corners.length == 8) = false := by
          simpa using h2
        have hq : ¬ qualifies thr a = true := by simp [qualifies, h8]
        rw [if_pos h2, ih acc h, List.filter_cons_of_neg hq]
      · rw [if_neg h2]
        push_neg at h2
        by_cases h3 : Val.lt (maxExtent a) thr
        · have hq : qualifies thr a = true :=
            qualifies_true (by simpa using h1) h2 h3
          rw [if_pos h3, List.filter_cons_of_pos hq]
          by_cases h4 : maxObjects ≤ (acc ++ [a]).length
          · rw [if_pos h4]
            have hlen : maxObjects - acc.length = 1 := by
              simp only [List.length_append, List.length_singleton] at h4
              omega
            rw [hlen]
            simp
          · rw [if_neg h4]
            have hlen : (acc ++ [a]).length < maxObjects := by
              simp only [List.length_append, List.length_singleton] at h4 ⊢
              omega
            rw [ih _ hlen]
            have hstep : maxObjects - acc.length =
                (maxObjects - (acc ++ [a]).length) + 1 := by
              simp only [List.length_append, List.length_singleton]
              omega
            rw [hstep, List.take_succ_cons]
            simp
        · have hq : ¬ qualifies thr a = true := by
            simp [qualifies, h3]
          rw [if_neg h3, List.filter_cons_of_neg hq]
          have h4 : ¬ maxObjects ≤ acc.length := by omega
          rw [if_neg h4, ih acc h]

theorem filterLoop_nil_eq_take (thr : Val) (maxObjects : Nat)
    (objs : List Object) (h : 0 < maxObjects) :
    filterLoop thr maxObjects objs [] =
      (objs.filter (qualifies thr)).take maxObjects := by
  have := filterLoop_eq_take thr maxObjects objs [] (by simpa using h)
  simpa using this

theorem cb_some {thr : Val} {maxObjects : Nat} {msg f : ObjectsStamped}
    {m : MarkerArray} (hp : cb thr maxObjects msg = some (f, m)) :
    f.header = msg.header ∧
    f.objects = filterLoop thr maxObjects msg.objects [] ∧
    m.markers = mkMarkers msg.header 0 (filterLoop thr maxObjects msg.objects []) ∧
    filterLoop thr maxObjects msg.objects [] ≠ [] := by
  simp only [cb] at hp
  by_cases he : (filterLoop thr maxObjects msg.objects []).isEmpty
  · rw [if_pos he] at hp
    exact absurd hp (by simp)
  · rw [if_neg he] at hp
    have hh := Option.some.inj hp
    have h1 : f = ⟨msg.header, filterLoop thr maxObjects msg.objects []⟩ :=
      (congrArg Prod.fst hh).symm
    have h2 : m =
        ⟨mkMarkers msg.header 0 (filterLoop thr maxObjects msg.objects [])⟩ :=
      (congrArg Prod.snd hh).symm
    subst h1
    subst h2
    refine ⟨rfl, rfl, rfl, ?_⟩
    intro hnil
    exact he (by rw [hnil]; rfl)

theorem mkMarkers_get_cube (hdr : Header) :
    ∀ (objs : List Object) (i k : Nat) (o : Object),
      objs.get? k = some o →
      (mkMarkers hdr i objs).get? (2 * k) = some (mkCube hdr (i + k) o) := by
  intro objs
  induction objs with
  | nil => intro i k o h; simp at h
  | cons a rest ih =>
    intro i k o h
    cases k with
    | zero =>
      rw [List.get?_cons_zero] at h
      have ha := Option.some.inj h
      subst ha
      simp [mkMarkers]
    | succ k =>
      rw [List.get?_cons_succ] at h
      have h2 : 2 * (k + 1) = (2 * k) + 1 + 1 := by ring
      simp only [mkMarkers]
      rw [h2, List.get?_cons_succ, List.get?_cons_succ, ih (i + 1) k o h]
      have h3 : i + 1 + k = i + (k + 1) := by omega
      rw [h3]

theorem mkMarkers_get_text (hdr : Header) :
    ∀ (objs : List Object) (i k : Nat) (o : Object),
      objs.get? k = some o →
      (mkMarkers hdr i objs).get? (2 * k + 1) = some (mkText hdr (i + k) o) := by
  intro objs
  induction objs with
  | nil => intro i k o h; simp at h
  | cons a rest ih =>
    intro i k o h
    cases k with
    | zero =>
      rw [List.get?_cons_zero] at h
      have ha := Option.some.inj h
      subst ha
      simp [mkMarkers]
    | succ k =>
      rw [List.get?_cons_succ] at h
      have h2 : 2 * (k + 1) + 1 = (2 * k + 1) + 1 + 1 := by ring
      simp only [mkMarkers]
      rw [h2, List.get?_cons_succ, List.get?_cons_succ, ih (i + 1) k o h]
      have h3 : i + 1 + k = i + (k + 1) := by omega
      rw [h3]

theorem mkMarkers_header (hdr : Header) :
    ∀ (objs : List Object) (i : Nat) (mrk : Marker),
      mrk ∈ mkMarkers hdr i objs → mrk.header = hdr := by
  intro objs
  induction objs with
  | nil => intro i mrk h; simp [mkMarkers] at h
  | cons a rest ih =>
    intro i mrk h
    simp only [mkMarkers, List.mem_cons] at h
    rcases h with h | h | h
    · subst h; rfl
    · subst h; rfl
    · exact ih (i + 1) mrk h

theorem qualifies_elim {thr : Val} {o : Object} (h : qualifies thr o = true) :
    hasNanPos o = false ∧ o.bounding_box_3d.corners.length = 8 ∧
    Val.lt (maxExtent o) thr = true := by
  simp only [qualifies, Bool.and_eq_true, Bool.not_eq_true', beq_iff_eq] at h
  exact ⟨h.1.1, h.1.2, h.2⟩

/-- C1: an input object passing the validity (NaN-free position) and
geometry (exactly 8 corners) checks appears in the filtered output only
if the largest of its three axis-aligned extents is strictly below the
size threshold; any such object whose largest extent compares greater or
equal to the threshold is excluded. -/
theorem claim1_threshold_test (thr : Val) (maxObjects : Nat)
    (msg f : ObjectsStamped) (m : MarkerArray) (o : Object)
    (hval : hasNanPos o = false)
    (hgeo : o.bounding_box_3d.corners.length = 8)
    (hp : cb thr maxObjects msg = some (f, m)) :
    (o ∈ f.objects → Val.lt (maxExtent o) thr = true) ∧
    (Val.ge (maxExtent o) thr = true → o ∉ f.objects) := by
  obtain ⟨-, hobjs, -, -⟩ := cb_some hp
  have hkey : o ∈ f.objects → Val.lt (maxExtent o) thr = true := by
    intro hmem
    rw [hobjs] at hmem
    rcases mem_filterLoop thr maxObjects msg.objects [] o hmem with hl | ⟨-, hq⟩
    · simp at hl
    · exact (qualifies_elim hq).2.2
  refine ⟨hkey, ?_⟩
  intro hge hmem
  have hlt := hkey hmem
  rw [Val.ge_imp_not_lt hge] at hlt
  cases hlt

/-- Witness for C1: in the concrete frame sampleMsg the qualifying object
sampleObj satisfies the conclusion of the threshold-test theorem. -/
theorem claim1_witness :
    hasNanPos sampleObj = false ∧
    sampleObj.bounding_box_3d.corners.length = 8 ∧
    cb size_threshold max_objects sampleMsg = some (sampleOut, sampleMarkers) ∧
    ((sampleObj ∈ sampleOut.objects →
        Val.lt (maxExtent sampleObj) size_threshold = true) ∧
     (Val.ge (maxExtent sampleObj) size_threshold = true →
        sampleObj ∉ sampleOut.objects)) :=
  ⟨by decide, by decide, by decide,
   claim1_threshold_test size_threshold max_objects sampleMsg sampleOut
     sampleMarkers sampleObj (by decide) (by decide) (by decide)⟩

/-- C2: for a nonzero configured maximum, the published object list is an
order-preserving subsequence of the input list, its length never exceeds
the maximum, and it equals the first min(max, total) qualifying objects
in scan order, that is, the maximum-length prefix of the qualifying
subsequence. -/
theorem claim2_subsequence_cap (thr : Val) (maxObjects : Nat)
    (msg f : ObjectsStamped) (m : MarkerArray)
    (hmax : 0 < maxObjects)
    (hp : cb thr maxObjects msg = some (f, m)) :
    List.Sublist f.objects msg.objects ∧
    f.objects.length ≤ maxObjects ∧
    f.objects = (msg.objects.filter (qualifies thr)).take maxObjects := by
  obtain ⟨-, hobjs, -, -⟩ := cb_some hp
  have htake := filterLoop_nil_eq_take thr maxObjects msg.objects hmax
  rw [hobjs, htake]
  refine ⟨?_, ?_, rfl⟩
  · exact (List.take_sublist _ _).trans (List.filter_sublist _)
  · exact List.length_take_le _ _

/-- Witness for C2 at the concrete frame sampleMsg with the default
configuration. -/
theorem claim2_witness :
    0 < max_objects ∧
    cb size_threshold max_objects sampleMsg = some (sampleOut, sampleMarkers) ∧
    (List.Sublist sampleOut.objects sampleMsg.objects ∧
     sampleOut.objects.length ≤ max_objects ∧
     sampleOut.objects =
       (sampleMsg.objects.filter (qualifies size_threshold)).take max_objects) :=
  ⟨by decide, by decide,
   claim2_subsequence_cap size_threshold max_objects sampleMsg sampleOut
     sampleMarkers (by decide) (by decide)⟩

/-- C3: an object with a NaN component in its position never appears in
the filtered output. -/
theorem claim3_nan_rejected (thr : Val) (maxObjects : Nat)
    (msg f : ObjectsStamped) (m : MarkerArray) (o : Object)
    (hnan : hasNanPos o = true)
    (hp : cb thr maxObjects msg = some (f, m)) :
    o ∉ f.objects := by
  obtain ⟨-, hobjs, -, -⟩ := cb_some hp
  rw [hobjs]
  intro hmem
  rcases mem_filterLoop thr maxObjects msg.objects [] o hmem with hl | ⟨-, hq⟩
  · simp at hl
  · have hf := (qualifies_elim hq).1
    rw [hnan] at hf
    cases hf

/-- Witness for C3: nanObj, whose position starts with NaN and whose
bounding box is small and well formed, is absent from the published
output for sampleMsg. -/
theorem claim3_witness :
    hasNanPos nanObj = true ∧
    cb size_threshold max_objects sampleMsg = some (sampleOut, sampleMarkers) ∧
    nanObj ∉ sampleOut.objects :=
  ⟨by decide, by decide,
   claim3_nan_rejected size_threshold max_objects sampleMsg sampleOut
     sampleMarkers nanObj (by decide) (by decide)⟩

/-- C4: an object whose bounding box does not have exactly 8 corner
points never appears in the filtered output, whatever its position or
dimensions. -/
theorem claim4_corners_rejected (thr : Val) (maxObjects : Nat)
    (msg f : ObjectsStamped) (m : MarkerArray) (o : Object)
    (hc : o.bounding_box_3d.corners.length ≠ 8)
    (hp : cb thr maxObjects msg = some (f, m)) :
    o ∉ f.objects := by
  obtain ⟨-, hobjs, -, -⟩ := cb_some hp
  rw [hobjs]
  intro hmem
  rcases mem_filterLoop thr maxObjects msg.objects [] o hmem with hl | ⟨-, hq⟩
  · simp at hl
  · exact hc (qualifies_elim hq).2.1

/-- Witness for C4: badCornersObj, with only 6 corners, is absent from
the published output for sampleMsg. -/
theorem claim4_witness :
    badCornersObj.bounding_box_3d.corners.length ≠ 8 ∧
    cb size_threshold max_objects sampleMsg = some (sampleOut, sampleMarkers) ∧
    badCornersObj ∉ sampleOut.objects :=
  ⟨by decide, by decide,
   claim4_corners_rejected size_threshold max_objects sampleMsg sampleOut
     sampleMarkers badCornersObj (by decide) (by decide)⟩

/-- C5: the callback publishes its two outputs, which are produced
together as one pair, exactly when at least one object survives the
scan; when no object is kept nothing is published. -/
theorem claim5_publish_iff (thr : Val) (maxObjects : Nat)
    (msg : ObjectsStamped) :
    (cb thr maxObjects msg).isSome = true ↔
      filterLoop thr maxObjects msg.objects [] ≠ [] := by
  cases hl : filterLoop thr maxObjects msg.objects [] with
  | nil => simp [cb, hl]
  | cons a t => simp [cb, hl]

/-- C6: for the kept object at index i of the filtered sequence, the
marker collection holds at position 2*i the cube marker (id 2*i, object
position, scale from the dimension triple, translucent green, identity
orientation) and at position 2*i + 1 the text marker (id 2*i + 1, same x
and y, z raised by half the third dimension plus 0.1, opaque white,
identity orientation, text label (id=label_id)). -/
theorem claim6_markers (thr : Val) (maxObjects : Nat)
    (msg f : ObjectsStamped) (m : MarkerArray) (i : Nat) (o : Object)
    (hp : cb thr maxObjects msg = some (f, m))
    (ho : f.objects.get? i = some o) :
    m.markers.get? (2 * i) = some (mkCube msg.header i o) ∧
    m.markers.get? (2 * i + 1) = some (mkText msg.header i o) ∧
    (mkCube msg.header i o).id = 2 * (i : Int) ∧
    (mkCube msg.header i o).type = markerCUBE ∧
    (mkCube msg.header i o).pose.position = o.position ∧
    (mkCube msg.header i o).pose.orientation =
      ⟨.num ⟨0, 1⟩, .num ⟨0, 1⟩, .num ⟨0, 1⟩, .num ⟨1, 1⟩⟩ ∧
    (mkCube msg.header i o).scale = o.dimensions_3d ∧
    (mkCube msg.header i o).color = ⟨⟨0, 1⟩, ⟨1, 1⟩, ⟨0, 1⟩, ⟨1, 2⟩⟩ ∧
    (mkText msg.header i o).id = 2 * (i : Int) + 1 ∧
    (mkText msg.header i o).type = markerTEXT ∧
    (mkText msg.header i o).pose.position.x = o.position.x ∧
    (mkText msg.header i o).pose.position.y = o.position.y ∧
    (mkText msg.header i o).pose.position.z =
      Val.add (Val.add o.position.z (Val.div o.dimensions_3d.z (.num ⟨2, 1⟩)))
        (.num ⟨1, 10⟩) ∧
    (mkText msg.header i o).pose.orientation =
      ⟨.num ⟨0, 1⟩, .num ⟨0, 1⟩, .num ⟨0, 1⟩, .num ⟨1, 1⟩⟩ ∧
    (mkText msg.header i o).color = ⟨⟨1, 1⟩, ⟨1, 1⟩, ⟨1, 1⟩, ⟨1, 1⟩⟩ ∧
    (mkText msg.header i o).text = o.label ++ " (id=" ++ toString o.label_id ++ ")" := by
  obtain ⟨-, hobjs, hm, -⟩ := cb_some hp
  rw [hobjs] at ho
  have hc := mkMarkers_get_cube msg.header _ 0 i o ho
  have ht := mkMarkers_get_text msg.header _ 0 i o ho
  rw [Nat.zero_add] at hc ht
  rw [hm]
  refine ⟨hc, ht, ?_, rfl, rfl, rfl, rfl, rfl, ?_, rfl, rfl, rfl, rfl, rfl,
    rfl, rfl⟩
  · simp only [mkCube]
    ring
  · simp only [mkText]
    ring

/-- Witness for C6: in the concrete run on sampleMsg, the kept object at
index 0 yields the cube marker at position 0 and the text marker at
position 1 with exactly the claimed fields. -/
theorem claim6_witness :
    cb size_threshold max_objects sampleMsg = some (sampleOut, sampleMarkers) ∧
    sampleOut.objects.get? 0 = some sampleObj ∧
    (sampleMarkers.markers.get? (2 * 0) =
        some (mkCube sampleMsg.header 0 sampleObj) ∧
     sampleMarkers.markers.get? (2 * 0 + 1) =
        some (mkText sampleMsg.header 0 sampleObj) ∧
     (mkCube sampleMsg.header 0 sampleObj).id = 2 * ((0 : Nat) : Int) ∧
     (mkCube sampleMsg.header 0 sampleObj).type = markerCUBE ∧
     (mkCube sampleMsg.header 0 sampleObj).pose.position = sampleObj.position ∧
     (mkCube sampleMsg.header 0 sampleObj).pose.orientation =
       ⟨.num ⟨0, 1⟩, .num ⟨0, 1⟩, .num ⟨0, 1⟩, .num ⟨1, 1⟩⟩ ∧
     (mkCube sampleMsg.header 0 sampleObj).scale = sampleObj.dimensions_3d ∧
     (mkCube sampleMsg.header 0 sampleObj).color =
       ⟨⟨0, 1⟩, ⟨1, 1⟩, ⟨0, 1⟩, ⟨1, 2⟩⟩ ∧
     (mkText sampleMsg.header 0 sampleObj).id = 2 * ((0 : Nat) : Int) + 1 ∧
     (mkText sampleMsg.header 0 sampleObj).type = markerTEXT ∧
     (mkText sampleMsg.header 0 sampleObj).pose.position.x =
       sampleObj.position.x ∧
     (mkText sampleMsg.header 0 sampleObj).pose.position.y =
       sampleObj.position.y ∧
     (mkText sampleMsg.header 0 sampleObj).pose.position.z =
       Val.add (Val.add sampleObj.position.z
         (Val.div sampleObj.dimensions_3d.z (.num ⟨2, 1⟩))) (.num ⟨1, 10⟩) ∧
     (mkText sampleMsg.header 0 sampleObj).pose.orientation =
       ⟨.num ⟨0, 1⟩, .num ⟨0, 1⟩, .num ⟨0, 1⟩, .num ⟨1, 1⟩⟩ ∧
     (mkText sampleMsg.header 0 sampleObj).color =
       ⟨⟨1, 1⟩, ⟨1, 1⟩, ⟨1, 1⟩, ⟨1, 1⟩⟩ ∧
     (mkText sampleMsg.header 0 sampleObj).text =
       sampleObj.label ++ " (id=" ++ toString sampleObj.label_id ++ ")") :=
  ⟨by decide, by decide,
   claim6_markers size_threshold max_objects sampleMsg sampleOut sampleMarkers
     0 sampleObj (by decide) (by decide)⟩

/-- C7: the callback raises no propagating error on any input: the
raising embedding cbE always returns ok, with the same value the total
function cb computes. -/
theorem claim7_no_exceptions (thr : Val) (maxObjects : Nat)
    (msg : ObjectsStamped) :
    cbE thr maxObjects msg = Except.ok (cb thr maxObjects msg) :=
  cbE_ok thr maxObjects msg

/-- C8: when output is produced, the published frame carries the input
header unchanged, every marker carries that same header, and every
published object is one of the input objects, unmodified. -/
theorem claim8_header_preserved (thr : Val) (maxObjects : Nat)
    (msg f : ObjectsStamped) (m : MarkerArray)
    (hp : cb thr maxObjects msg = some (f, m)) :
    f.header = msg.header ∧
    (∀ mrk ∈ m.markers, mrk.header = msg.header) ∧
    (∀ o ∈ f.objects, o ∈ msg.objects) := by
  obtain ⟨hf, hobjs, hm, -⟩ := cb_some hp
  refine ⟨hf, ?_, ?_⟩
  · intro mrk hmem
    rw [hm] at hmem
    exact mkMarkers_header msg.header _ 0 mrk hmem
  · intro o hmem
    rw [hobjs] at hmem
    rcases mem_filterLoop thr maxObjects msg.objects [] o hmem with hl | ⟨hin, -⟩
    · simp at hl
    · exact hin

/-- Witness for C8 at the concrete run on sampleMsg. -/
theorem claim8_witness :
    cb size_threshold max_objects sampleMsg = some (sampleOut, sampleMarkers) ∧
    (sampleOut.header = sampleMsg.header ∧
     (∀ mrk ∈ sampleMarkers.markers, mrk.header = sampleMsg.header) ∧
     (∀ o ∈ sampleOut.objects, o ∈ sampleMsg.objects)) :=
  ⟨by decide,
   claim8_header_preserved size_threshold max_objects sampleMsg sampleOut
     sampleMarkers (by decide)⟩

/-- C9: the callback is deterministic and reads nothing beyond its input
message and the two configuration constants: equal inputs under equal
configuration give equal outputs. -/
theorem claim9_deterministic (thr : Val) (maxObjects : Nat)
    (msg1 msg2 : ObjectsStamped) (h : msg1 = msg2) :
    cb thr maxObjects msg1 = cb thr maxObjects msg2 := by
  rw [h]

/-- Witness for C9 at the concrete frame sampleMsg. -/
theorem claim9_witness :
    sampleMsg = sampleMsg ∧
    cb size_threshold max_objects sampleMsg =
      cb size_threshold max_objects sampleMsg :=
  ⟨rfl, claim9_deterministic size_threshold max_objects sampleMsg sampleMsg rfl⟩

/-- C10: selection never reads the dimension triple, the label or the
label id: replacing them (by NaN, zero, negative or any values) in an
object that qualifies leaves it qualifying, and in a single-object frame
it is kept and published; the unvalidated dimensions flow directly into
the cube marker scale and the text marker height offset, and the label
into the rendered text. -/
theorem claim10_dims_not_inspected (thr : Val) (maxObjects : Nat)
    (hdr : Header) (o : Object) (d : Vec3) (lbl : String) (lid : Int) (i : Nat)
    (hval : hasNanPos o = false)
    (hgeo : o.bounding_box_3d.corners.length = 8)
    (hsz : Val.lt (maxExtent o) thr = true)
    (hmax : 0 < maxObjects) :
    qualifies thr (withDims o d lbl lid) = true ∧
    cb thr maxObjects { header := hdr, objects := [withDims o d lbl lid] } =
      some ({ header := hdr, objects := [withDims o d lbl lid] },
            { markers := [mkCube hdr 0 (withDims o d lbl lid),
                          mkText hdr 0 (withDims o d lbl lid)] }) ∧
    (mkCube hdr i (withDims o d lbl lid)).scale = d ∧
    (mkText hdr i (withDims o d lbl lid)).pose.position.z =
      Val.add (Val.add o.position.z (Val.div d.z (.num ⟨2, 1⟩))) (.num ⟨1, 10⟩) ∧
    (mkText hdr i (withDims o d lbl lid)).text =
      lbl ++ " (id=" ++ toString lid ++ ")" := by
  have h1 : hasNanPos (withDims o d lbl lid) = false := hval
  have h2 : (withDims o d lbl lid).bounding_box_3d.corners.length = 8 := hgeo
  have h3 : Val.lt (maxExtent (withDims o d lbl lid)) thr = true := hsz
  have hq : qualifies thr (withDims o d lbl lid) = true := qualifies_true h1 h2 h3
  have hflt : filterLoop thr maxObjects [withDims o d lbl lid] [] =
      [withDims o d lbl lid] := by
    simp only [filterLoop]
    rw [if_neg (by simp [h1]), if_neg (by simp [h2]), if_pos h3]
    simp
  have hcb : cb thr maxObjects { header := hdr, objects := [withDims o d lbl lid] } =
      some ({ header := hdr, objects := [withDims o d lbl lid] },
            { markers := [mkCube hdr 0 (withDims o d lbl lid),
                          mkText hdr 0 (withDims o d lbl lid)] }) := by
    simp only [cb, hflt]
    rfl
  exact ⟨hq, hcb, rfl, rfl, rfl⟩

/-- Witness for C10: sampleObj with its dimensions replaced by a triple
containing NaN and a negative value, and its label replaced, still
qualifies, is published alone in a single-object frame, and its
unvalidated dimensions appear in the markers. -/
theorem claim10_witness :
    hasNanPos sampleObj = false ∧
    sampleObj.bounding_box_3d.corners.length = 8 ∧
    Val.lt (maxExtent sampleObj) size_threshold = true ∧
    0 < max_objects ∧
    (qualifies size_threshold
        (withDims sampleObj ⟨.nan, .num ⟨0, 1⟩, .num ⟨-3, 1⟩⟩ "weird" (-7)) = true ∧
     cb size_threshold max_objects
        { header := sampleHeader,
          objects := [withDims sampleObj ⟨.nan, .num ⟨0, 1⟩, .num ⟨-3, 1⟩⟩ "weird" (-7)] } =
       some ({ header := sampleHeader,
               objects := [withDims sampleObj ⟨.nan, .num ⟨0, 1⟩, .num ⟨-3, 1⟩⟩ "weird" (-7)] },
             { markers := [mkCube sampleHeader 0
                             (withDims sampleObj ⟨.nan, .num ⟨0, 1⟩, .num ⟨-3, 1⟩⟩ "weird" (-7)),
                           mkText sampleHeader 0
                             (withDims sampleObj ⟨.nan, .num ⟨0, 1⟩, .num ⟨-3, 1⟩⟩ "weird" (-7))] }) ∧
     (mkCube sampleHeader 0
        (withDims sampleObj ⟨.nan, .num ⟨0, 1⟩, .num ⟨-3, 1⟩⟩ "weird" (-7))).scale =
       ⟨.nan, .num ⟨0, 1⟩, .num ⟨-3, 1⟩⟩ ∧
     (mkText sampleHeader 0
        (withDims sampleObj ⟨.nan, .num ⟨0, 1⟩, .num ⟨-3, 1⟩⟩ "weird" (-7))).pose.position.z =
       Val.add (Val.add sampleObj.position.z
         (Val.div (Val.num ⟨-3, 1⟩) (.num ⟨2, 1⟩))) (.num ⟨1, 10⟩) ∧
     (mkText sampleHeader 0
        (withDims sampleObj ⟨.nan, .num ⟨0, 1⟩, .num ⟨-3, 1⟩⟩ "weird" (-7))).text =
       "weird" ++ " (id=" ++ toString (-7 : Int) ++ ")") :=
  ⟨by decide, by decide, by decide, by decide,
   claim10_dims_not_inspected size_threshold max_objects sampleHeader sampleObj
     ⟨.nan, .num ⟨0, 1⟩, .num ⟨-3, 1⟩⟩ "weird" (-7) 0 (by decide) (by decide)
     (by decide) (by decide)⟩

end SmallObjFilter

end ObjectFiltering
